import Mathlib

/-!
Verification of the mdby query core (WHERE evaluator, SELECT/INSERT/UPDATE
execution pipeline, schema type checking, LIKE matching) by a shallow
embedding of the Rust sources into Lean.

Modelling conventions, stated once:
* Rust `i64` is modelled as `Int`; the claims under verification concern
  division-by-zero policy and constructor shapes, not wrap-around overflow.
* Rust `f64` payloads are modelled as exact rationals (`ℚ`).  Every float the
  verified properties touch is a small finite value, for which IEEE-754
  comparison and the constructor-level promotion rules coincide with the
  rational model.  NaN/infinity behaviour is outside all claims.
* `HashMap<String, Value>` fields are modelled as association lists with
  HashMap `insert`/`get` semantics (`finsert` replaces an existing key,
  `fget` looks a key up).  Iteration order of documents' field maps is never
  relied upon by the proved statements.
* Rust `String` is handled at the character-list level; all concrete strings
  in the claims are ASCII, where byte length (Rust `len`) equals char count.
-/

namespace Mdby

/-- Field values stored in a document's frontmatter
(src/storage/document.rs, `enum Value`). -/
inductive Value where
  | null
  | bool (b : Bool)
  | int (i : Int)
  | float (q : ℚ)
  | str (s : String)
  | arr (vs : List Value)
  | obj (fs : List (String × Value))

mutual

/-- Structural equality of values, mirroring `#[derive(PartialEq)]` on the
Rust `Value` (floats compare as numbers; in the rational model that is plain
equality).  Objects are compared as association lists; no verified claim
compares objects. -/
def value_eqv : Value → Value → Bool
  | .null, .null => true
  | .bool a, .bool b => a == b
  | .int a, .int b => a == b
  | .float a, .float b => a == b
  | .str a, .str b => a == b
  | .arr a, .arr b => value_list_eqv a b
  | .obj a, .obj b => value_fields_eqv a b
  | _, _ => false

/-- Pointwise equality of value lists (Rust `Vec<Value>` `PartialEq`). -/
def value_list_eqv : List Value → List Value → Bool
  | [], [] => true
  | a :: as_, b :: bs => value_eqv a b && value_list_eqv as_ bs
  | _, _ => false

/-- Pointwise equality of field lists (model of `HashMap` `PartialEq`;
unused by the verified claims). -/
def value_fields_eqv : List (String × Value) → List (String × Value) → Bool
  | [], [] => true
  | (ka, va) :: as_, (kb, vb) :: bs =>
      ka == kb && value_eqv va vb && value_fields_eqv as_ bs
  | _, _ => false

end

/-- A document's field map (src/storage/document.rs, `type Fields`). -/
def Fields : Type := List (String × Value)

/-- HashMap lookup: first binding of the key. -/
def fget : Fields → String → Option Value
  | [], _ => none
  | (k, v) :: rest, key => if k = key then some v else fget rest key

/-- HashMap insert: replace the binding if the key is present, else add it. -/
def finsert (key : String) (val : Value) : Fields → Fields
  | [] => [(key, val)]
  | (k, v) :: rest =>
      if k = key then (k, val) :: rest else (k, v) :: finsert key val rest

/-- A document (src/storage/document.rs, `struct Document`); the
non-persisted `meta` field is omitted as no claim touches it. -/
structure Document where
  id : String
  path : String
  fields : Fields
  body : String

/-- `Document::new`: path is derived from the id. -/
def Document.new (id : String) : Document :=
  { id := id, path := id ++ ".md", fields := ([] : List (String × Value)), body := "" }

/-- Modelled from the spec: `Document::get_field` is called by the WHERE
evaluator (src/query/filter.rs) but its definition is not present under
src/; per the spec, column lookup "reads the document's field map
(missing ⇒ null)". -/
def Document.get_field (d : Document) (name : String) : Option Value :=
  fget d.fields name

/-! AST (mdql/src/ast.rs). -/

/-- Literal values (`enum Literal`). -/
inductive Literal where
  | null
  | bool (b : Bool)
  | int (i : Int)
  | float (q : ℚ)
  | str (s : String)
  | array (xs : List Literal)

/-- Binary operators (`enum BinaryOp`). -/
inductive BinaryOp where
  | eq | ne | lt | le | gt | ge
  | and | or
  | add | sub | mul | div | mod
  | concat
deriving DecidableEq

/-- Unary operators (`enum UnaryOp`). -/
inductive UnaryOp where
  | not | neg
deriving DecidableEq

/-- Special built-in fields (`enum SpecialField`). -/
inductive SpecialField where
  | id | body | path | modified | created
deriving DecidableEq

mutual

/-- Column references (`enum Column`); `Column::Expr{expr, alias}` carries a
nested expression. -/
inductive Column where
  | star
  | field (name : String)
  | special (sf : SpecialField)
  | exprCol (e : Expr) (al : Option String)

/-- WHERE/SET expressions (`enum Expr`). -/
inductive Expr where
  | literal (lit : Literal)
  | column (c : Column)
  | binaryOp (left : Expr) (op : BinaryOp) (right : Expr)
  | unaryOp (op : UnaryOp) (e : Expr)
  | function (name : String) (args : List Expr)
  | inE (e : Expr) (values : List Expr) (negated : Bool)
  | like (e : Expr) (pat : String) (negated : Bool)
  | contains (text : String)
  | hasTag (tag : String) (column : Option String)
  | isNull (e : Expr) (negated : Bool)
  | between (e : Expr) (low : Expr) (high : Expr) (negated : Bool)

end

/-- ORDER BY direction (`enum OrderDirection`). -/
inductive OrderDirection where
  | asc | desc
deriving DecidableEq

/-- One ORDER BY key (`struct OrderBy`). -/
structure OrderBy where
  column : String
  direction : OrderDirection

mutual

/-- `literal_to_value` (identical in src/query/filter.rs and
src/query/executor.rs). -/
def literal_to_value : Literal → Value
  | .null => .null
  | .bool b => .bool b
  | .int i => .int i
  | .float q => .float q
  | .str s => .str s
  | .array xs => .arr (literal_list_to_value xs)

/-- `arr.iter().map(literal_to_value).collect()` on the nested list. -/
def literal_list_to_value : List Literal → List Value
  | [] => []
  | x :: xs => literal_to_value x :: literal_list_to_value xs

end

/-! WHERE evaluation (src/query/filter.rs). -/

namespace Filter

/-- Result of expression evaluation (`enum ExprResult`). -/
inductive ExprResult where
  | value (v : Value)
  | bool (b : Bool)
  | null

/-- `ExprResult::is_truthy`: booleans are their value, both null forms are
false, and every other concrete value is truthy (the wildcard arm). -/
def is_truthy : ExprResult → Bool
  | .bool b => b
  | .value (.bool b) => b
  | .value .null => false
  | .null => false
  | .value _ => true

/-- `values_equal`, arm for arm. -/
def values_equal : ExprResult → ExprResult → Bool
  | .null, .null => true
  | .value .null, .null => true
  | .null, .value .null => true
  | .bool a, .bool b => a == b
  | .value a, .value b => value_eqv a b
  | .bool a, .value (.bool b) => a == b
  | .value (.bool a), .bool b => a == b
  | _, _ => false

/-- `Ordering as i32` (Rust discriminants -1, 0, 1). -/
def ord_to_int : Ordering → Int
  | .lt => -1
  | .eq => 0
  | .gt => 1

/-- Total comparison on `Int` (Rust `i64::cmp`). -/
def cmp_int (a b : Int) : Ordering :=
  if a < b then .lt else if a = b then .eq else .gt

/-- Comparison on the rational float model (Rust `f64::partial_cmp`, which is
`Some` on the finite values these claims use). -/
def cmp_rat (a b : ℚ) : Ordering :=
  if a < b then .lt else if a = b then .eq else .gt

/-- Lexicographic comparison on char lists (Rust `str::cmp`; UTF-8 byte order
equals code-point order). -/
def cmp_chars : List Char → List Char → Ordering
  | [], [] => .eq
  | [], _ :: _ => .lt
  | _ :: _, [] => .gt
  | a :: as_, b :: bs =>
      if a < b then .lt else if b < a then .gt else cmp_chars as_ bs

/-- `compare_values` of the filter: typed arms plus cross `Int×Float`, and a
catch-all 0. -/
def compare_values : ExprResult → ExprResult → Int
  | .value (.int a), .value (.int b) => ord_to_int (cmp_int a b)
  | .value (.float a), .value (.float b) => ord_to_int (cmp_rat a b)
  | .value (.str a), .value (.str b) => ord_to_int (cmp_chars a.data b.data)
  | .value (.int a), .value (.float b) => ord_to_int (cmp_rat (a : ℚ) b)
  | .value (.float a), .value (.int b) => ord_to_int (cmp_rat a (b : ℚ))
  | _, _ => 0

/-- `arithmetic_op`: int op when both ints, else float op with promotion;
non-numeric operands give null. -/
def arithmetic_op (l r : ExprResult) (int_op : Int → Int → Int)
    (float_op : ℚ → ℚ → ℚ) : ExprResult :=
  match l, r with
  | .value (.int a), .value (.int b) => .value (.int (int_op a b))
  | .value (.float a), .value (.float b) => .value (.float (float_op a b))
  | .value (.int a), .value (.float b) => .value (.float (float_op (a : ℚ) b))
  | .value (.float a), .value (.int b) => .value (.float (float_op a (b : ℚ)))
  | _, _ => .null

/-- Truncation of a rational toward zero (Rust `f64::trunc`). -/
def rat_trunc (q : ℚ) : Int := if 0 ≤ q then ⌊q⌋ else -⌊-q⌋

/-- Rust `f64 %` (remainder with the dividend's sign); the `b = 0` branch is
unreachable through the claims (Rust would give NaN there). -/
def rat_mod (a b : ℚ) : ℚ := if b = 0 then 0 else a - b * (rat_trunc (a / b) : ℚ)

/-- Stringification used by `Concat` (`value_to_string`).  The Rust `f64`
display format is not modelled precisely (no claim exercises it). -/
def float_to_string (q : ℚ) : String := toString q.num ++ "/" ++ toString q.den

/-- `value_to_string`, arm for arm. -/
def value_to_string : ExprResult → String
  | .value (.str s) => s
  | .value (.int i) => toString i
  | .value (.float q) => float_to_string q
  | .value (.bool b) => if b then "true" else "false"
  | .bool b => if b then "true" else "false"
  | _ => ""

/-- `evaluate_binary_op`: logical ops go through `is_truthy`, comparisons
through `values_equal`/`compare_values`, arithmetic through `arithmetic_op`
with the zero-divisor guards of the source, concat through
`value_to_string`.  Rust `i64` `/` and `%` truncate toward zero
(`Int.tdiv`/`Int.tmod`). -/
def evaluate_binary_op (l : ExprResult) (op : BinaryOp) (r : ExprResult) :
    ExprResult :=
  match op with
  | .and => .bool (is_truthy l && is_truthy r)
  | .or => .bool (is_truthy l || is_truthy r)
  | .eq => .bool (values_equal l r)
  | .ne => .bool (! values_equal l r)
  | .lt => .bool (decide (compare_values l r < 0))
  | .le => .bool (decide (compare_values l r ≤ 0))
  | .gt => .bool (decide (0 < compare_values l r))
  | .ge => .bool (decide (0 ≤ compare_values l r))
  | .add => arithmetic_op l r (fun a b => a + b) (fun a b => a + b)
  | .sub => arithmetic_op l r (fun a b => a - b) (fun a b => a - b)
  | .mul => arithmetic_op l r (fun a b => a * b) (fun a b => a * b)
  | .div => arithmetic_op l r (fun a b => if b ≠ 0 then Int.tdiv a b else 0)
      (fun a b => a / b)
  | .mod => arithmetic_op l r (fun a b => if b ≠ 0 then Int.tmod a b else 0)
      (fun a b => rat_mod a b)
  | .concat => .value (.str (value_to_string l ++ value_to_string r))

/-- Lowercasing for `CONTAINS` (Rust `str::to_lowercase`; faithful on
ASCII). -/
def to_lower (l : List Char) : List Char := l.map Char.toLower

/-- Whether `needle` is a leading segment of `hay`. -/
def starts_with_chars : List Char → List Char → Bool
  | _, [] => true
  | [], _ :: _ => false
  | h :: hs, n :: ns => h == n && starts_with_chars hs ns

/-- Rust `str::contains` (substring at any position). -/
def contains_sub (hay needle : List Char) : Bool :=
  match hay with
  | [] => needle.isEmpty
  | _ :: rest => starts_with_chars hay needle || contains_sub rest needle

end Filter

/-! LIKE matching (src/storage/document.rs, `Value::matches_pattern`).

The `regex` crate is external; it is modelled here for exactly the fragment
the translated patterns exercise: literal characters, `.` (any char) and a
postfix `*`, matched against the whole string (the source anchors the
translation as `^...$`, which whole-string matching realises).  Characters
that are regex metacharacters outside this fragment (grouping, classes,
alternation, escapes, quantifiers other than `*`, anchors) are treated as
compile failures, as the crate does for the unmatched constructs the claims
exercise (e.g. a lone `(`). -/

/-- A regex atom: any character, or one literal character. -/
inductive RAtom where
  | any
  | lit (c : Char)

/-- A regex piece: an atom matched once, or starred. -/
inductive RPiece where
  | once (a : RAtom)
  | star (a : RAtom)

/-- Metacharacters outside the modelled fragment: compiling them fails. -/
def unsupported_meta : List Char :=
  ['(', ')', '[', ']', '{', '}', '|', '?', '+', '\\', '^', '$']

/-- One compiled atom: `.` is any-char, everything else a literal. -/
def mk_atom (c : Char) : RAtom := if c = '.' then .any else .lit c

/-- Compile a regex string into pieces; `none` is a compile error. -/
def compile_regex : List Char → Option (List RPiece)
  | [] => some []
  | c :: '*' :: rest =>
      if c ∈ unsupported_meta ∨ c = '*' then none
      else (compile_regex rest).map (fun ps => RPiece.star (mk_atom c) :: ps)
  | c :: rest =>
      if c ∈ unsupported_meta ∨ c = '*' then none
      else (compile_regex rest).map (fun ps => RPiece.once (mk_atom c) :: ps)

/-- Does an atom match one character. -/
def atom_match : RAtom → Char → Bool
  | .any, _ => true
  | .lit c, x => c == x

/-- The backtracking matcher, structurally recursive on a fuel argument so
that it reduces definitionally.  Every recursive call removes a piece or
consumes a character, so `ps.length + s.length + 1` fuel is always enough;
the fuel-exhausted arm is unreachable from `match_pieces`. -/
def match_go : Nat → List RPiece → List Char → Bool
  | 0, _, _ => false
  | _ + 1, [], s => s.isEmpty
  | _ + 1, .once _ :: _, [] => false
  | fuel + 1, .once a :: ps, x :: xs => atom_match a x && match_go fuel ps xs
  | fuel + 1, .star _ :: ps, [] => match_go fuel ps []
  | fuel + 1, .star a :: ps, x :: xs =>
      match_go fuel ps (x :: xs) ||
        (atom_match a x && match_go fuel (.star a :: ps) xs)

/-- Whole-string matching of a piece list. -/
def match_pieces (ps : List RPiece) (s : List Char) : Bool :=
  match_go (ps.length + s.length + 1) ps s

/-- The pattern translation of `Value::matches_pattern`:
`replace('%', ".*")` then `replace('_', ".")`.  Since `%` and `_` are single
characters and the first replacement introduces no `_`, the sequential
replaces equal this single character map. -/
def translate_pattern : List Char → List Char
  | [] => []
  | c :: rest =>
      (if c = '%' then ['.', '*'] else if c = '_' then ['.'] else [c]) ++
        translate_pattern rest

/-- `Value::matches_pattern`: only strings can match; the translated pattern
is compiled (failure gives `false`, the source's `unwrap_or(false)`) and
matched against the whole string. -/
def matches_pattern : Value → String → Bool
  | .str s, p =>
      match compile_regex (translate_pattern p.data) with
      | some ps => match_pieces ps s.data
      | none => false
  | _, _ => false

namespace Filter

mutual

/-- `evaluate_expr`, case for case over `Expr`. -/
def evaluate_expr : Expr → Document → ExprResult
  | .literal lit, _ => .value (literal_to_value lit)
  | .column c, d => evaluate_column c d
  | .binaryOp l op r, d =>
      evaluate_binary_op (evaluate_expr l d) op (evaluate_expr r d)
  | .unaryOp op e, d =>
      let v := evaluate_expr e d
      match op with
      | .not => .bool (! is_truthy v)
      | .neg =>
          match v with
          | .value (.int i) => .value (.int (-i))
          | .value (.float q) => .value (.float (-q))
          | _ => .null
  | .contains text, d =>
      .bool (contains_sub (to_lower d.body.data) (to_lower text.data))
  | .hasTag tag col?, d =>
      let field_name := col?.getD "tags"
      let has_tag :=
        match fget d.fields field_name with
        | some (.arr items) =>
            items.any (fun v => match v with | .str s => s == tag | _ => false)
        | _ => false
      .bool has_tag
  | .like e pat neg, d =>
      let v := evaluate_expr e d
      let m := match v with
        | .value val => matches_pattern val pat
        | _ => false
      .bool (if neg then !m else m)
  | .inE e vs neg, d =>
      let v := evaluate_expr e d
      let in_l := in_list v vs d
      .bool (if neg then !in_l else in_l)
  | .isNull e neg, d =>
      let v := evaluate_expr e d
      let is_n := match v with
        | .null => true
        | .value .null => true
        | _ => false
      .bool (if neg then !is_n else is_n)
  | .between e lo hi neg, d =>
      let v := evaluate_expr e d
      let lo_v := evaluate_expr lo d
      let hi_v := evaluate_expr hi d
      let in_range :=
        decide (0 ≤ compare_values v lo_v) && decide (compare_values v hi_v ≤ 0)
      .bool (if neg then !in_range else in_range)
  | .function _ _, _ => .null

/-- Column lookup inside the evaluator (`Expr::Column` arm): star is
unevaluable, fields read the map, `@modified`/`@created` are unimplemented
and null. -/
def evaluate_column : Column → Document → ExprResult
  | .star, _ => .null
  | .field name, d =>
      match d.get_field name with
      | some v => .value v
      | none => .null
  | .special sf, d =>
      match sf with
      | .id => .value (.str d.id)
      | .body => .value (.str d.body)
      | .path => .value (.str d.path)
      | .modified => .null
      | .created => .null
  | .exprCol e _, d => evaluate_expr e d

/-- `values.iter().any(...)` of the `In` arm on the nested list. -/
def in_list : ExprResult → List Expr → Document → Bool
  | _, [], _ => false
  | v, x :: xs, d => values_equal v (evaluate_expr x d) || in_list v xs d

end

/-- Top-level filter entry (`evaluate`): only a boolean-true result accepts
the document.  Like the Rust function, it is total — there is no error
path. -/
def evaluate (e : Expr) (d : Document) : Bool :=
  match evaluate_expr e d with
  | .bool b => b
  | .value (.bool b) => b
  | _ => false

end Filter

/-! Executor (src/query/executor.rs).  Collection I/O (directory scans,
writes, git commits) is delegated to collaborators; the executor's document
transformations are modelled as pure functions of the scanned document
list. -/

namespace Executor

/-- SELECT statement (mdql/src/ast.rs `SelectStmt`); `from` is a Lean
keyword, so the source-collection field is `from_`. -/
structure SelectStmt where
  columns : List Column
  from_ : String
  where_clause : Option Expr
  order_by : List OrderBy
  limit : Option Nat
  offset : Option Nat

/-- The executor's `compare_values` on optional field values: unset sorts
before set, like types compare, every other pairing is `Equal`. -/
def compare_values : Option Value → Option Value → Ordering
  | none, none => .eq
  | none, some _ => .lt
  | some _, none => .gt
  | some (.int a), some (.int b) => Filter.cmp_int a b
  | some (.float a), some (.float b) => Filter.cmp_rat a b
  | some (.str a), some (.str b) => Filter.cmp_chars a.data b.data
  | some (.bool a), some (.bool b) =>
      match a, b with
      | false, false => .eq
      | true, true => .eq
      | false, true => .lt
      | true, false => .gt
  | _, _ => .eq

/-- The ORDER BY comparator closure inside `execute_select`: the first key
whose comparison is not `Equal` decides (reversed under `DESC`); exhausting
the keys gives `Equal`. -/
def order_cmp : List OrderBy → Document → Document → Ordering
  | [], _, _ => .eq
  | o :: rest, a, b =>
      let c := compare_values (fget a.fields o.column) (fget b.fields o.column)
      if c ≠ Ordering.eq then
        match o.direction with
        | .asc => c
        | .desc => c.swap
      else order_cmp rest a b

/-- Insert into a sorted list, before the first element the comparator does
not place strictly below the inserted one. -/
def insert_sorted (cmp : Document → Document → Ordering) (x : Document) :
    List Document → List Document
  | [] => [x]
  | y :: ys =>
      if cmp x y = Ordering.gt then y :: insert_sorted cmp x ys else x :: y :: ys

/-- Model of `Vec::sort_by` (a stable sort).  Insertion sort is stable and
agrees with any stable sort whenever the comparator is a total preorder,
which holds on the homogeneous keys the verified statements sort. -/
def sort_by (cmp : Document → Document → Ordering) : List Document → List Document
  | [] => []
  | x :: xs => insert_sorted cmp x (sort_by cmp xs)

/-- The OFFSET step of `execute_select`: skip `offset` documents when it is
below the length, otherwise clear the list. -/
def apply_offset (off? : Option Nat) (docs : List Document) : List Document :=
  match off? with
  | some off => if off < docs.length then docs.drop off else []
  | none => docs

/-- The LIMIT step of `execute_select`: `Vec::truncate`. -/
def apply_limit (lim? : Option Nat) (docs : List Document) : List Document :=
  match lim? with
  | some lim => docs.take lim
  | none => docs

/-- Is a projection column `*`. -/
def is_star : Column → Bool
  | .star => true
  | _ => false

/-- `project_columns`: rebuild the document keeping id, path and body,
copying only the named fields (star copies all; special and expression
columns contribute nothing). -/
def project_columns (doc : Document) (cols : List Column) : Document :=
  let base : Document :=
    { id := doc.id, path := doc.path, fields := ([] : List (String × Value)),
      body := doc.body }
  cols.foldl
    (fun res c =>
      match c with
      | .star => { res with fields := doc.fields }
      | .field name =>
          match fget doc.fields name with
          | some v => { res with fields := finsert name v res.fields }
          | none => res
      | .special _ => res
      | .exprCol _ _ => res)
    base

/-- The WHERE step of `execute_select` (`docs.retain(...)`). -/
def where_step (w? : Option Expr) (docs : List Document) : List Document :=
  match w? with
  | some w => docs.filter (fun d => Filter.evaluate w d)
  | none => docs

/-- The ORDER BY step of `execute_select` (sort only when keys were
given). -/
def order_step (ob : List OrderBy) (docs : List Document) : List Document :=
  if ob.isEmpty then docs else sort_by (order_cmp ob) docs

/-- The projection step of `execute_select` (skipped when any requested
column is `*`). -/
def project_step (cols : List Column) (docs : List Document) : List Document :=
  if cols.any is_star then docs
  else docs.map (fun d => project_columns d cols)

/-- The document transformations of `execute_select` after the collection
scan, in the source's order: WHERE retain, ORDER BY sort, OFFSET, LIMIT,
projection. -/
def execute_select_pure (stmt : SelectStmt) (docs : List Document) :
    List Document :=
  project_step stmt.columns
    (apply_limit stmt.limit
      (apply_offset stmt.offset
        (order_step stmt.order_by
          (where_step stmt.where_clause docs))))

/-- One SET clause of UPDATE (mdql/src/ast.rs `SetClause`). -/
structure SetClause where
  column : String
  value : Expr

/-- `evaluate_set_value`: literals and plain field reads only; every other
expression gives null (the source's TODO arm). -/
def evaluate_set_value (e : Expr) (d : Document) : Value :=
  match e with
  | .literal lit => literal_to_value lit
  | .column (.field name) => (fget d.fields name).getD .null
  | _ => .null

/-- The per-document SET loop of `execute_update`: clauses are applied in
order, each evaluated against the document as mutated by the preceding
clauses of the same statement. -/
def apply_set_clauses : List SetClause → Document → Document
  | [], d => d
  | c :: cs, d =>
      apply_set_clauses cs
        { d with fields := finsert c.column (evaluate_set_value c.value d) d.fields }

end Executor

/-! Schema model and validation (src/schema/mod.rs). -/

/-- Field types (`enum FieldType`). -/
inductive FieldType where
  | string
  | int
  | float
  | bool
  | date
  | datetime
  | array (inner : FieldType)
  | object
  | ref (collection : String)

/-- One field definition (`struct FieldDef`); the YAML default value is
modelled as a `Value`. -/
structure FieldDef where
  field_type : FieldType
  required : Bool
  default : Option Value
  description : Option String
  indexed : Bool
  unique : Bool

/-- A collection schema (`struct Schema`), fields as an association list
standing for the `HashMap` (iteration order of a `HashMap` is unspecified;
no proved statement depends on it). -/
structure Schema where
  name : String
  description : Option String
  fields : List (String × FieldDef)

/-- Splitting a char list on a separator, Rust `str::split(sep)`: adjacent,
leading and trailing separators produce empty segments. -/
def split_on_char_aux (sep : Char) : List Char → List Char → List (List Char)
  | [], acc => [acc.reverse]
  | c :: cs, acc =>
      if c = sep then acc.reverse :: split_on_char_aux sep cs []
      else split_on_char_aux sep cs (c :: acc)

/-- Entry point of the splitter. -/
def split_on_char (sep : Char) (l : List Char) : List (List Char) :=
  split_on_char_aux sep l []

/-- Decimal value of a digit list. -/
def digits_val (cs : List Char) : Nat :=
  cs.foldl (fun acc c => acc * 10 + (c.toNat - '0'.toNat)) 0

/-- Dropping the optional leading `+` accepted by Rust's unsigned parser. -/
def strip_plus : List Char → List Char
  | [] => []
  | c :: rest => if c = '+' then rest else c :: rest

/-- Rust `str::parse::<u32>`: an optional leading `+`, then at least one
digit, and the value must fit in 32 bits. -/
def parse_u32 (cs : List Char) : Option Nat :=
  let body := strip_plus cs
  if body.isEmpty then none
  else if body.all Char.isDigit then
    if digits_val body < 2 ^ 32 then some (digits_val body) else none
  else none

/-- The parts check of `is_valid_date`: exactly three components
(`parts.len() == 3`), each parsing as an unsigned integer, month 1–12 and
day 1–31. -/
def date_parts_ok : List (List Char) → Bool
  | [py, pm, pd] =>
      match parse_u32 py, parse_u32 pm, parse_u32 pd with
      | some _, some m, some d =>
          decide (1 ≤ m) && decide (m ≤ 12) && decide (1 ≤ d) && decide (d ≤ 31)
      | _, _, _ => false
  | _ => false

/-- `is_valid_date` on chars: exactly 10 characters, then the
`-`-separated parts check.  Component widths, month lengths and leap years
are not checked. -/
def is_valid_date_chars (l : List Char) : Bool :=
  if l.length = 10 then date_parts_ok (split_on_char '-' l) else false

/-- `is_valid_date` (Rust `s.len()` is the byte length; on the ASCII strings
of these claims it equals the char count). -/
def is_valid_date (s : String) : Bool := is_valid_date_chars s.data

/-- `is_valid_datetime`: a valid 10-char date, optionally followed by `T` or
space, then at least `HH:MM` (hour ≤ 23, minute ≤ 59) before any `Z`/`+`
suffix; a bare date is accepted. -/
def is_valid_datetime_chars (l : List Char) : Bool :=
  if l.length < 10 then false
  else if ! is_valid_date_chars (l.take 10) then false
  else if 10 < l.length then
    match l.drop 10 with
    | sep :: time_part =>
        if sep ≠ 'T' ∧ sep ≠ ' ' then false
        else if l.length < 16 then false
        else
          let time_base :=
            if time_part.contains 'Z' ∨ time_part.contains '+' ∨
                time_part.contains '-' then
              time_part.takeWhile (fun c => c ≠ 'Z' ∧ c ≠ '+')
            else time_part
          match split_on_char ':' time_base with
          | p0 :: p1 :: _ =>
              match parse_u32 p0, parse_u32 p1 with
              | some h, some m => decide (h ≤ 23) && decide (m ≤ 59)
              | _, _ => false
          | _ => false
    | [] => false
  else true

/-- `check_type_match`: permissive structural typing; null matches
everything, `Int` also accepts whole floats (`fract() == 0.0`, i.e.
denominator 1 in the rational model), `Float` also accepts ints, dates and
datetimes are validated strings, arrays check elementwise, refs are
strings. -/
def check_type_match : FieldType → Value → Bool
  | _, .null => true
  | .string, .str _ => true
  | .int, .int _ => true
  | .int, .float q => q.den == 1
  | .float, .float _ => true
  | .float, .int _ => true
  | .bool, .bool _ => true
  | .date, .str s => is_valid_date s
  | .datetime, .str s => is_valid_datetime_chars s.data
  | .object, .obj _ => true
  | .array inner, .arr items => items.all (fun item => check_type_match inner item)
  | .ref _, .str _ => true
  | _, _ => false

/-- `describe_value_type` for error messages. -/
def describe_value_type : Value → String
  | .null => "null"
  | .bool _ => "bool"
  | .int _ => "int"
  | .float _ => "float"
  | .str _ => "string"
  | .arr items =>
      match items with
      | [] => "array"
      | first :: _ => "array<" ++ describe_value_type first ++ ">"
  | .obj _ => "object"

/-- Debug rendering of a field type (`format!("{:?}", ...)` on the Rust
enum). -/
def field_type_debug : FieldType → String
  | .string => "String"
  | .int => "Int"
  | .float => "Float"
  | .bool => "Bool"
  | .date => "Date"
  | .datetime => "DateTime"
  | .array inner => "Array(" ++ field_type_debug inner ++ ")"
  | .object => "Object"
  | .ref c => "Ref(\x22" ++ c ++ "\x22)"

/-- Schema validation errors (`enum ValidationError` of src/schema/mod.rs;
the unused `UniqueViolation` variant is omitted). -/
inductive SchemaError where
  | missingRequired (field : String)
  | typeMismatch (field expected actual : String)

/-- The required-fields pass of `Schema::validate`. -/
def check_required : List (String × FieldDef) → Fields → Except SchemaError Unit
  | [], _ => .ok ()
  | (name, fd) :: rest, f =>
      if fd.required ∧ (fget f name).isNone then .error (.missingRequired name)
      else check_required rest f

/-- The type-checking pass of `Schema::validate`. -/
def check_types : List (String × FieldDef) → Fields → Except SchemaError Unit
  | [], _ => .ok ()
  | (name, fd) :: rest, f =>
      match fget f name with
      | some v =>
          if check_type_match fd.field_type v then check_types rest f
          else
            .error (.typeMismatch name (field_type_debug fd.field_type)
              (describe_value_type v))
      | none => check_types rest f

/-- `Schema::validate`: required fields first, then types, first failure
aborts. -/
def Schema.validate (sch : Schema) (doc : Document) : Except SchemaError Unit :=
  match check_required sch.fields doc.fields with
  | .error e => .error e
  | .ok _ => check_types sch.fields doc.fields

/-! Identifier validation (src/validation.rs). -/

/-- Identifier validation errors (`enum ValidationError` of
src/validation.rs); the two `InvalidIdentifier` messages (bad character /
bad first character) are collapsed into one constructor. -/
inductive IdentError where
  | invalidIdentifier (name : String)
  | tooLong (name : String)
  | empty
  | reserved (name : String)

/-- `RESERVED_NAMES`. -/
def RESERVED_NAMES : List String :=
  [".", "..", "con", "prn", "aux", "nul",
   "com1", "com2", "com3", "com4", "com5", "com6", "com7", "com8", "com9",
   "lpt1", "lpt2", "lpt3", "lpt4", "lpt5", "lpt6", "lpt7", "lpt8", "lpt9"]

/-- Characters allowed in identifiers (`is_ascii_alphanumeric`, underscore,
hyphen). -/
def ident_char_ok (c : Char) : Bool := c.isAlphanum || c = '_' || c = '-'

/-- The per-character loop of `validate_identifier`: the flag marks the
first character, which additionally may not be `-` or `_`. -/
def ident_chars_ok : Bool → List Char → Bool
  | _, [] => true
  | first, c :: cs =>
      if ! ident_char_ok c then false
      else if first && (c = '-' || c = '_') then false
      else ident_chars_ok false cs

/-- `validate_identifier` (used for collection names and document ids; Rust
`name.len()` is bytes, chars here — equal on ASCII). -/
def validate_identifier (name : String) : Except IdentError Unit :=
  if name.data.isEmpty then .error .empty
  else if 255 < name.data.length then .error (.tooLong name)
  else if ! ident_chars_ok true name.data then .error (.invalidIdentifier name)
  else if RESERVED_NAMES.contains (String.mk (name.data.map Char.toLower)) then
    .error (.reserved name)
  else .ok ()

/-! INSERT execution (src/query/executor.rs, `execute_insert`).  Directory
I/O, duplicate-id rejection by the collection store, and the git commit are
external; the modelled function returns the document that would be handed to
`collection.insert`, or the first error raised before any persistence. -/

namespace Executor

/-- INSERT statement (mdql/src/ast.rs `InsertStmt`). -/
structure InsertStmt where
  into : String
  columns : List String
  values : List Literal
  body : Option String

/-- Errors of `execute_insert` (Rust `anyhow` errors, by kind). -/
inductive InsertError where
  | ident (e : IdentError)
  | missingId
  | schemaViolation (e : SchemaError)

/-- `columns.iter().position(|c| c == "id")`: index of the first column
named `id`. -/
def id_position : List String → Option Nat
  | [] => none
  | c :: cs => if c = "id" then some 0 else (id_position cs).map (fun i => i + 1)

/-- The id extraction of `execute_insert`: the value at the first `id`
column's index must be a string literal. -/
def extract_id (cols : List String) (vals : List Literal) : Option String :=
  match id_position cols with
  | none => none
  | some i =>
      match vals.get? i with
      | some (.str s) => some s
      | _ => none

/-- The field-building loop of `execute_insert`: columns are zipped with
values positionally, every column named `id` is skipped, columns beyond the
value list are dropped. -/
def build_fields : List String → List Literal → Fields → Fields
  | [], _, f => f
  | c :: cs, vs, f =>
      let f' :=
        if c ≠ "id" then
          match vs with
          | v :: _ => finsert c (literal_to_value v) f
          | [] => f
        else f
      build_fields cs (vs.drop 1) f'

/-- `execute_insert` up to the persistence boundary: collection-name
validation, id extraction (missing ⇒ the missing-id error), document-id
validation, document construction, then schema validation when a schema is
registered for the collection.  An error means nothing is persisted. -/
def execute_insert (schema? : Option Schema) (stmt : InsertStmt) :
    Except InsertError Document :=
  match validate_identifier stmt.into with
  | .error e => .error (.ident e)
  | .ok _ =>
      match extract_id stmt.columns stmt.values with
      | none => .error .missingId
      | some id =>
          match validate_identifier id with
          | .error e => .error (.ident e)
          | .ok _ =>
              let doc : Document :=
                { Document.new id with
                    fields := build_fields stmt.columns stmt.values
                      ([] : List (String × Value)),
                    body := (stmt.body).getD "" }
              match schema? with
              | some sch =>
                  match sch.validate doc with
                  | .error e => .error (.schemaViolation e)
                  | .ok _ => .ok doc
              | none => .ok doc

end Executor

/-! Auxiliary predicates and concrete inputs used to state the claims. -/

/-- Is a value the boolean variant. -/
def Value.is_bool : Value → Bool
  | .bool _ => true
  | _ => false

/-- Is a value the string variant. -/
def Value.is_string : Value → Bool
  | .str _ => true
  | _ => false

/-- Is a value numeric (int or float). -/
def Value.is_numeric : Value → Bool
  | .int _ => true
  | .float _ => true
  | _ => false

/-- Is a value the float variant. -/
def Value.is_float : Value → Bool
  | .float _ => true
  | _ => false

/-- The five arithmetic operators (the "Arithmetic" group of
`evaluate_binary_op`). -/
def BinaryOp.is_arith : BinaryOp → Bool
  | .add | .sub | .mul | .div | .mod => true
  | _ => false

/-- One decimal digit as a character (used only to build test strings). -/
def digit_char : Nat → Char
  | 0 => '0'
  | 1 => '1'
  | 2 => '2'
  | 3 => '3'
  | 4 => '4'
  | 5 => '5'
  | 6 => '6'
  | 7 => '7'
  | 8 => '8'
  | 9 => '9'
  | _ => '0'

/-- A number zero-padded to a fixed width (little reversed construction:
most significant first). -/
def pad_digits : Nat → Nat → List Char
  | 0, _ => []
  | w + 1, n => pad_digits w (n / 10) ++ [digit_char (n % 10)]

/-- A zero-padded `YYYY-MM-DD` string. -/
def mk_date (y m d : Nat) : String :=
  String.mk (pad_digits 4 y ++ '-' :: (pad_digits 2 m ++ '-' :: pad_digits 2 d))

/-- Definition following the spec's words, for comparison with the source's
`is_valid_date`: the `YYYY-MM-DD` shape proper — four digits, `-`, two
digits, `-`, two digits — with month 1–12 and day 1–31. -/
def spec_date_shape (s : String) : Bool :=
  match s.data with
  | [y1, y2, y3, y4, h1, m1, m2, h2, d1, d2] =>
      [y1, y2, y3, y4, m1, m2, d1, d2].all Char.isDigit &&
        (h1 == '-') && (h2 == '-') &&
        (let mv := 10 * (m1.toNat - 48) + (m2.toNat - 48)
         let dv := 10 * (d1.toNat - 48) + (d2.toNat - 48)
         decide (1 ≤ mv) && decide (mv ≤ 12) && decide (1 ≤ dv) && decide (dv ≤ 31))
  | _ => false

/-- Documents of the spec's ORDER BY example: priorities 1, 5, 10 on ids
task-1, task-3, task-2. -/
def doc_task1 : Document :=
  { id := "task-1", path := "task-1.md", fields := [("priority", .int 1)], body := "" }

/-- Second document of the ORDER BY example (priority 5). -/
def doc_task3 : Document :=
  { id := "task-3", path := "task-3.md", fields := [("priority", .int 5)], body := "" }

/-- Third document of the ORDER BY example (priority 10). -/
def doc_task2 : Document :=
  { id := "task-2", path := "task-2.md", fields := [("priority", .int 10)], body := "" }

/-- `SELECT * FROM tasks ORDER BY priority DESC`. -/
def stmt_order_desc : Executor.SelectStmt :=
  { columns := [.star], from_ := "tasks", where_clause := none,
    order_by := [{ column := "priority", direction := .desc }],
    limit := none, offset := none }

/-- Documents of the pagination example: priorities 1, 2, 3. -/
def pg_doc1 : Document :=
  { id := "pg-1", path := "pg-1.md", fields := [("priority", .int 1)], body := "" }

/-- Second pagination document (priority 2). -/
def pg_doc2 : Document :=
  { id := "pg-2", path := "pg-2.md", fields := [("priority", .int 2)], body := "" }

/-- Third pagination document (priority 3). -/
def pg_doc3 : Document :=
  { id := "pg-3", path := "pg-3.md", fields := [("priority", .int 3)], body := "" }

/-- `SELECT * FROM todos ORDER BY priority LIMIT 2 OFFSET 1`. -/
def stmt_paginate : Executor.SelectStmt :=
  { columns := [.star], from_ := "todos", where_clause := none,
    order_by := [{ column := "priority", direction := .asc }],
    limit := some 2, offset := some 1 }

/-! Shared helper lemmas. -/

theorem fget_finsert_self (key : String) (val : Value) (f : Fields) :
    fget (finsert key val f) key = some val := by
  induction f with
  | nil => simp [finsert, fget]
  | cons hd tl ih =>
      obtain ⟨k, v⟩ := hd
      by_cases h : k = key
      · simp [finsert, fget, h]
      · simp [finsert, fget, h, ih]

theorem fget_finsert_ne (key other : String) (val : Value) (f : Fields)
    (h : key ≠ other) : fget (finsert key val f) other = fget f other := by
  induction f with
  | nil => simp [finsert, fget, h]
  | cons hd tl ih =>
      obtain ⟨k, v⟩ := hd
      have h' : other ≠ key := Ne.symm h
      by_cases hk : k = key
      · subst hk; simp [finsert, fget, h]
      · by_cases ho : k = other <;> simp [finsert, fget, hk, ho, h', ih]

theorem where_step_length_le (w? : Option Expr) (docs : List Document) :
    (Executor.where_step w? docs).length ≤ docs.length := by
  cases w? with
  | none => simp [Executor.where_step]
  | some w => simpa [Executor.where_step] using List.length_filter_le _ docs

theorem insert_sorted_length (cmp : Document → Document → Ordering)
    (x : Document) (l : List Document) :
    (Executor.insert_sorted cmp x l).length = l.length + 1 := by
  induction l with
  | nil => simp [Executor.insert_sorted]
  | cons y ys ih =>
      by_cases h : cmp x y = Ordering.gt <;> simp [Executor.insert_sorted, h, ih]

theorem sort_by_length (cmp : Document → Document → Ordering)
    (l : List Document) : (Executor.sort_by cmp l).length = l.length := by
  induction l with
  | nil => rfl
  | cons x xs ih => simp [Executor.sort_by, insert_sorted_length, ih]

theorem order_step_length (ob : List OrderBy) (docs : List Document) :
    (Executor.order_step ob docs).length = docs.length := by
  by_cases h : ob.isEmpty <;> simp [Executor.order_step, h, sort_by_length]

theorem apply_offset_ge (docs : List Document) (n : Nat)
    (h : docs.length ≤ n) : Executor.apply_offset (some n) docs = [] := by
  simp [Executor.apply_offset, Nat.not_lt.mpr h]

theorem apply_limit_nil (lim? : Option Nat) : Executor.apply_limit lim? [] = [] := by
  cases lim? <;> simp [Executor.apply_limit]

theorem project_step_nil (cols : List Column) : Executor.project_step cols [] = [] := by
  by_cases h : cols.any Executor.is_star <;> simp [Executor.project_step, h]

theorem id_position_get (cols : List String) (i : Nat)
    (h : Executor.id_position cols = some i) : cols.get? i = some "id" := by
  induction cols generalizing i with
  | nil => simp [Executor.id_position] at h
  | cons c cs ih =>
      by_cases hc : c = "id"
      · simp [Executor.id_position, hc] at h
        subst hc
        simp [← h]
      · simp [Executor.id_position, hc] at h
        obtain ⟨j, hj, rfl⟩ := h
        simpa using ih j hj

theorem pad_digits_length (w n : Nat) : (pad_digits w n).length = w := by
  induction w generalizing n with
  | zero => rfl
  | succ w ih => simp [pad_digits, ih]

theorem digit_char_isDigit {r : Nat} (h : r < 10) :
    (digit_char r).isDigit = true := by
  interval_cases r <;> decide

theorem pad_digits_all_digit (w n : Nat) :
    ∀ c ∈ pad_digits w n, c.isDigit = true := by
  induction w generalizing n with
  | zero => intro c hc; simp [pad_digits] at hc
  | succ w ih =>
      intro c hc
      simp only [pad_digits, List.mem_append, List.mem_singleton] at hc
      rcases hc with hc | rfl
      · exact ih (n / 10) c hc
      · exact digit_char_isDigit (Nat.mod_lt n (by norm_num))

theorem pad_digits_no_char (w n : Nat) {c : Char} (hc : c.isDigit = false) :
    c ∉ pad_digits w n := by
  intro hmem
  have := pad_digits_all_digit w n c hmem
  rw [hc] at this
  exact Bool.false_ne_true this

theorem digits_val_append (l : List Char) (c : Char) :
    digits_val (l ++ [c]) = digits_val l * 10 + (c.toNat - '0'.toNat) := by
  simp [digits_val, List.foldl_append]

theorem digit_char_toNat {r : Nat} (h : r < 10) :
    (digit_char r).toNat - '0'.toNat = r := by
  interval_cases r <;> decide

theorem pad_digits_val (w n : Nat) (h : n < 10 ^ w) :
    digits_val (pad_digits w n) = n := by
  induction w generalizing n with
  | zero =>
      have : n = 0 := Nat.lt_one_iff.mp (by simpa using h)
      simp [this, pad_digits, digits_val]
  | succ w ih =>
      have hdiv : n / 10 < 10 ^ w := by
        rw [Nat.div_lt_iff_lt_mul (by norm_num)]
        calc n < 10 ^ (w + 1) := h
        _ = 10 ^ w * 10 := by ring
      have hmod : n % 10 < 10 := Nat.mod_lt n (by norm_num)
      rw [pad_digits, digits_val_append, ih (n / 10) hdiv, digit_char_toNat hmod]
      omega

theorem strip_plus_of_digits {l : List Char} (h : ∀ c ∈ l, c.isDigit = true) :
    strip_plus l = l := by
  cases l with
  | nil => rfl
  | cons c cs =>
      have hc : c.isDigit = true := h c (List.mem_cons_self _ _)
      have : c ≠ '+' := by rintro rfl; simp at hc
      simp [strip_plus, this]

theorem parse_pad (w n : Nat) (hw : w ≠ 0) (h : n < 10 ^ w) (h32 : n < 2 ^ 32) :
    parse_u32 (pad_digits w n) = some n := by
  have hall : ∀ c ∈ pad_digits w n, c.isDigit = true := pad_digits_all_digit w n
  have hne : pad_digits w n ≠ [] := by
    intro hnil
    have := pad_digits_length w n
    rw [hnil] at this
    simp at this
    exact hw this.symm
  unfold parse_u32
  rw [strip_plus_of_digits hall]
  rw [if_neg (by simpa [List.isEmpty_iff] using hne)]
  rw [if_pos (by simpa [List.all_eq_true] using hall)]
  rw [pad_digits_val w n h]
  rw [if_pos h32]

theorem split_aux_no_sep {sep : Char} {l : List Char} (h : sep ∉ l)
    (acc : List Char) : split_on_char_aux sep l acc = [acc.reverse ++ l] := by
  induction l generalizing acc with
  | nil => simp [split_on_char_aux]
  | cons c cs ih =>
      have hc : ¬ (c = sep) := by rintro rfl; exact h (List.mem_cons_self _ _)
      have hcs : sep ∉ cs := fun hm => h (List.mem_cons_of_mem _ hm)
      simp [split_on_char_aux, hc, ih hcs]

theorem split_aux_with_sep {sep : Char} {A : List Char} (h : sep ∉ A)
    (rest acc : List Char) :
    split_on_char_aux sep (A ++ sep :: rest) acc
      = (acc.reverse ++ A) :: split_on_char_aux sep rest [] := by
  induction A generalizing acc with
  | nil => simp [split_on_char_aux]
  | cons c cs ih =>
      have hc : ¬ (c = sep) := by rintro rfl; exact h (List.mem_cons_self _ _)
      have hcs : sep ∉ cs := fun hm => h (List.mem_cons_of_mem _ hm)
      simp [split_on_char_aux, hc, ih hcs]

theorem split_three {sep : Char} {A B C : List Char} (hA : sep ∉ A)
    (hB : sep ∉ B) (hC : sep ∉ C) :
    split_on_char sep (A ++ sep :: (B ++ sep :: C)) = [A, B, C] := by
  unfold split_on_char
  rw [split_aux_with_sep hA, split_aux_with_sep hB, split_aux_no_sep hC]
  simp

/-! Claim C1: truthiness in WHERE evaluation. -/

/-- Claim C1, counterexample.  The claim states that wherever a boolean is
expected — in particular as an operand of `AND` — a non-boolean value such
as an `Int` is treated as falsy.  In the code `is_truthy` maps every
non-null non-boolean value to `true`, so the filter `1 AND 1` accepts every
document instead of rejecting it as the claim would require. -/
theorem c1_truthiness_counterexample :
    Filter.evaluate (.binaryOp (.literal (.int 1)) .and (.literal (.int 1)))
        (Document.new "doc") = true
    ∧ Filter.is_truthy (.value (.int 1)) = true := by
  exact ⟨rfl, rfl⟩

/-- Claim C1 as amended: at the top level only a boolean `true` (bare or
wrapped) makes the filter accept a document; as operands of `AND`, `OR` and
`NOT` (which go through `is_truthy`) both null forms are falsy, booleans
are their own value, and every other value — `Int`, `Float`, `String`,
`Array`, `Object` — is truthy.  Evaluation is a total function with no
error path. -/
theorem c1_truthiness_amended :
    (∀ (e : Expr) (d : Document),
        Filter.evaluate e d = true ↔
          (Filter.evaluate_expr e d = .bool true
            ∨ Filter.evaluate_expr e d = .value (.bool true)))
    ∧ (∀ b, Filter.is_truthy (.bool b) = b)
    ∧ (∀ b, Filter.is_truthy (.value (.bool b)) = b)
    ∧ Filter.is_truthy .null = false
    ∧ Filter.is_truthy (.value .null) = false
    ∧ (∀ v : Value, v.is_bool = false → v ≠ .null →
        Filter.is_truthy (.value v) = true)
    ∧ (∀ l r, Filter.evaluate_binary_op l .and r
        = .bool (Filter.is_truthy l && Filter.is_truthy r))
    ∧ (∀ l r, Filter.evaluate_binary_op l .or r
        = .bool (Filter.is_truthy l || Filter.is_truthy r))
    ∧ (∀ (e : Expr) (d : Document), Filter.evaluate_expr (.unaryOp .not e) d
        = .bool (! Filter.is_truthy (Filter.evaluate_expr e d))) := by
  refine ⟨?_, ?_, ?_, rfl, rfl, ?_, ?_, ?_, ?_⟩
  · intro e d
    unfold Filter.evaluate
    cases h : Filter.evaluate_expr e d with
    | bool b => cases b <;> simp
    | value v => cases v <;> simp
    | null => simp
  · intro b; cases b <;> rfl
  · intro b; cases b <;> rfl
  · intro v hb hn
    cases v <;> simp_all [Value.is_bool, Filter.is_truthy]
  · intro l r; rfl
  · intro l r; rfl
  · intro e d; rfl

/-- Claim C1, witness for the amended statement. -/
theorem c1_truthiness_witness :
    (Filter.evaluate (.literal (.bool true)) (Document.new "doc") = true ↔
      (Filter.evaluate_expr (.literal (.bool true)) (Document.new "doc") = .bool true
        ∨ Filter.evaluate_expr (.literal (.bool true)) (Document.new "doc")
            = .value (.bool true)))
    ∧ Filter.is_truthy (.value (.str "x")) = true := by
  exact ⟨c1_truthiness_amended.1 (.literal (.bool true)) (Document.new "doc"),
    c1_truthiness_amended.2.2.2.2.2.1 (.str "x") rfl (by simp)⟩

/-! Claim C2: UPDATE SET clause evaluation order. -/

/-- Claim C2, counterexample.  The claim states every SET value is
evaluated against the pre-update snapshot, so after `SET a = 1, b = a` the
field `b` would receive a's original value 0.  In the code the per-document
loop inserts each clause's result before evaluating the next clause, so `b`
receives 1. -/
theorem c2_set_snapshot_counterexample :
    fget (Executor.apply_set_clauses
        [{ column := "a", value := .literal (.int 1) },
         { column := "b", value := .column (.field "a") }]
        { id := "t", path := "t.md", fields := [("a", .int 0)], body := "" }).fields
      "b" = some (.int 1)
    ∧ fget (Executor.apply_set_clauses
        [{ column := "a", value := .literal (.int 1) },
         { column := "b", value := .column (.field "a") }]
        { id := "t", path := "t.md", fields := [("a", .int 0)], body := "" }).fields
      "b" ≠ some (.int 0) := by
  refine ⟨rfl, ?_⟩
  intro h
  have h' : some (Value.int 1) = some (Value.int 0) := h
  simp at h'

/-- Claim C2 as amended: SET clauses are applied sequentially in statement
order, and each clause's value is evaluated against the document as already
mutated by the preceding clauses of the same statement — after
`SET a = <lit>, b = a` the field `b` receives the literal just written to
`a`, for every document and literal. -/
theorem c2_set_sequential_amended (d : Document) (a b : String) (v : Literal) :
    fget (Executor.apply_set_clauses
        [{ column := a, value := .literal v },
         { column := b, value := .column (.field a) }] d).fields b
      = some (literal_to_value v) := by
  simp [Executor.apply_set_clauses, Executor.evaluate_set_value,
    fget_finsert_self]

/-! Claim C3: OFFSET and LIMIT semantics. -/

/-- Claim C3, counterexample.  The claim states that OFFSET `n` with
`n ≥ len` is a no-op returning the list unchanged; the code clears the
list in that branch, so offsetting a one-element list by 1 yields the empty
list, not the unchanged list. -/
theorem c3_offset_counterexample :
    Executor.apply_offset (some 1) [Document.new "task-1"]
      ≠ [Document.new "task-1"] := by
  intro h
  have h' : ([] : List Document) = [Document.new "task-1"] := h
  simp at h'

/-- Claim C3 as amended: applying OFFSET `n` to the filtered-and-sorted list
empties it when `n ≥ len` (never an error), and drops exactly the first `n`
documents when `n < len`; LIMIT `m` then truncates to the first `m`
documents, so the result never exceeds `m`. -/
theorem c3_offset_limit_amended :
    (∀ (docs : List Document) (n : Nat), docs.length ≤ n →
        Executor.apply_offset (some n) docs = [])
    ∧ (∀ (docs : List Document) (n : Nat), n < docs.length →
        Executor.apply_offset (some n) docs = docs.drop n)
    ∧ (∀ (docs : List Document) (m : Nat),
        Executor.apply_limit (some m) docs = docs.take m
        ∧ (Executor.apply_limit (some m) docs).length ≤ m) := by
  refine ⟨apply_offset_ge, ?_, ?_⟩
  · intro docs n h
    simp [Executor.apply_offset, h]
  · intro docs m
    refine ⟨rfl, ?_⟩
    simp [Executor.apply_limit]

/-- Claim C3, witness for the amended statement. -/
theorem c3_offset_limit_witness :
    Executor.apply_offset (some 2) [Document.new "a"] = []
    ∧ Executor.apply_offset (some 1) [Document.new "a", Document.new "b"]
        = [Document.new "a", Document.new "b"].drop 1 := by
  exact ⟨c3_offset_limit_amended.1 [Document.new "a"] 2 (by simp),
    c3_offset_limit_amended.2.1 [Document.new "a", Document.new "b"] 1 (by simp)⟩

/-! Claim C4: pagination. -/

/-- Claim C4: over the three pagination documents ordered ascending by the
numeric `priority` field, `LIMIT 2 OFFSET 1` returns exactly the 2nd and
3rd documents in order; and for every statement carrying an OFFSET at least
the scanned document count, the result set is empty (and evaluation is a
total function, so never an error). -/
theorem c4_pagination :
    Executor.execute_select_pure stmt_paginate [pg_doc3, pg_doc1, pg_doc2]
      = [pg_doc2, pg_doc3]
    ∧ (∀ (stmt : Executor.SelectStmt) (docs : List Document) (n : Nat),
        stmt.offset = some n → docs.length ≤ n →
        Executor.execute_select_pure stmt docs = []) := by
  refine ⟨rfl, ?_⟩
  intro stmt docs n hoff hlen
  have hw := where_step_length_le stmt.where_clause docs
  have hord := order_step_length stmt.order_by (Executor.where_step stmt.where_clause docs)
  have hle : (Executor.order_step stmt.order_by
      (Executor.where_step stmt.where_clause docs)).length ≤ n := by
    rw [hord]; exact le_trans hw hlen
  unfold Executor.execute_select_pure
  rw [hoff, apply_offset_ge _ _ hle, apply_limit_nil, project_step_nil]

/-- Claim C4, witness. -/
theorem c4_pagination_witness :
    Executor.execute_select_pure
        { columns := [.star], from_ := "todos", where_clause := none,
          order_by := [], limit := none, offset := some 3 }
        [pg_doc1, pg_doc2] = [] := by
  exact c4_pagination.2 _ [pg_doc1, pg_doc2] 3 rfl (by simp)

/-! Claim C6: multi-key ORDER BY comparison. -/

/-- Claim C6: the ORDER BY comparator decides by the first key whose
comparison is not equal (reversed under DESC) and cascades ties to the next
key; a document with the key unset sorts before one with it set under ASC
and after it under DESC; and on the spec's example (priorities 1, 5, 10 for
task-1, task-3, task-2) `ORDER BY priority DESC` yields
[task-2, task-3, task-1]. -/
theorem c6_order_by :
    (∀ (o : OrderBy) (rest : List OrderBy) (a b : Document),
        Executor.compare_values (fget a.fields o.column) (fget b.fields o.column)
          = .eq →
        Executor.order_cmp (o :: rest) a b = Executor.order_cmp rest a b)
    ∧ (∀ (k : String) (dir : OrderDirection) (rest : List OrderBy)
        (a b : Document) (c : Ordering),
        Executor.compare_values (fget a.fields k) (fget b.fields k) = c →
        c ≠ .eq →
        Executor.order_cmp ({ column := k, direction := dir } :: rest) a b
          = (match dir with | .asc => c | .desc => c.swap))
    ∧ (∀ (k : String) (rest : List OrderBy) (a b : Document) (v : Value),
        fget a.fields k = none → fget b.fields k = some v →
        Executor.order_cmp ({ column := k, direction := .asc } :: rest) a b = .lt
        ∧ Executor.order_cmp ({ column := k, direction := .desc } :: rest) a b
            = .gt)
    ∧ Executor.execute_select_pure stmt_order_desc [doc_task1, doc_task3, doc_task2]
        = [doc_task2, doc_task3, doc_task1] := by
  refine ⟨?_, ?_, ?_, rfl⟩
  · intro o rest a b h
    simp [Executor.order_cmp, h]
  · intro k dir rest a b c h hne
    cases dir <;> simp [Executor.order_cmp, h, hne]
  · intro k rest a b v ha hb
    have h : Executor.compare_values (fget a.fields k) (fget b.fields k)
        = Ordering.lt := by rw [ha, hb]; rfl
    constructor <;> simp [Executor.order_cmp, h, Ordering.swap]

/-- Claim C6, witness. -/
theorem c6_order_by_witness :
    Executor.order_cmp [{ column := "priority", direction := .asc }]
        (Document.new "u") doc_task1 = .lt
    ∧ Executor.order_cmp [{ column := "priority", direction := .desc }]
        (Document.new "u") doc_task1 = .gt
    ∧ Executor.order_cmp
        [{ column := "done", direction := .asc },
         { column := "priority", direction := .asc }]
        doc_task1 doc_task3 = Executor.order_cmp
        [{ column := "priority", direction := .asc }] doc_task1 doc_task3 := by
  have hu := c6_order_by.2.2.1 "priority" [] (Document.new "u") doc_task1
    (.int 1) rfl rfl
  exact ⟨hu.1, hu.2,
    c6_order_by.1 { column := "done", direction := .asc }
      [{ column := "priority", direction := .asc }] doc_task1 doc_task3 rfl⟩

/-! Claim C7: arithmetic promotion and division by zero. -/

/-- Claim C7: for the arithmetic operators, integer division and modulo by
zero evaluate to integer 0 (no panic, no error — the evaluator is total),
and whenever both operands are numeric and at least one is a float, the
result is a float. -/
theorem c7_arithmetic :
    (∀ a : Int,
        Filter.evaluate_binary_op (.value (.int a)) .div (.value (.int 0))
          = .value (.int 0)
        ∧ Filter.evaluate_binary_op (.value (.int a)) .mod (.value (.int 0))
            = .value (.int 0))
    ∧ (∀ op : BinaryOp, op.is_arith = true → ∀ x y : Value,
        x.is_numeric = true → y.is_numeric = true →
        (x.is_float = true ∨ y.is_float = true) →
        ∃ q : ℚ, Filter.evaluate_binary_op (.value x) op (.value y)
          = .value (.float q)) := by
  constructor
  · intro a
    constructor <;> simp [Filter.evaluate_binary_op, Filter.arithmetic_op]
  · intro op hop x y hx hy hf
    cases op <;> simp [BinaryOp.is_arith] at hop <;>
      cases x <;> simp [Value.is_numeric] at hx <;>
      cases y <;> simp [Value.is_numeric] at hy <;>
      first
        | exact ⟨_, rfl⟩
        | simp [Value.is_float] at hf

/-- Claim C7, witness. -/
theorem c7_arithmetic_witness :
    Filter.evaluate_binary_op (.value (.int 7)) .div (.value (.int 0))
      = .value (.int 0)
    ∧ ∃ q : ℚ, Filter.evaluate_binary_op (.value (.float 3)) .mul
        (.value (.int 2)) = .value (.float q) := by
  exact ⟨(c7_arithmetic.1 7).1,
    c7_arithmetic.2 .mul rfl (.float 3) (.int 2) rfl rfl (Or.inl rfl)⟩

/-! Claim C9: ORDER BY comparator versus WHERE comparator on mixed
Int/Float pairs. -/

/-- Claim C9: the executor's ORDER BY comparator has no Int×Float arm and
returns Equal for every mixed pair (so sorting treats each such pair as a
tie), while the WHERE comparator orders the same pair numerically (casting
the int to the float domain); at the concrete pair Int 1 / Float 2 the two
comparators disagree. -/
theorem c9_comparator_divergence :
    (∀ (i : Int) (q : ℚ),
        Executor.compare_values (some (.int i)) (some (.float q)) = .eq
        ∧ Executor.compare_values (some (.float q)) (some (.int i)) = .eq)
    ∧ (∀ (i : Int) (q : ℚ),
        Filter.compare_values (.value (.int i)) (.value (.float q))
          = (if (i : ℚ) < q then -1 else if (i : ℚ) = q then 0 else 1)
        ∧ Filter.compare_values (.value (.float q)) (.value (.int i))
            = (if q < (i : ℚ) then -1 else if q = (i : ℚ) then 0 else 1))
    ∧ (Filter.compare_values (.value (.int 1)) (.value (.float 2)) = -1
        ∧ Executor.compare_values (some (.int 1)) (some (.float 2)) = .eq) := by
  refine ⟨fun i q => ⟨rfl, rfl⟩, ?_, by norm_num [Filter.compare_values,
    Filter.cmp_rat, Filter.ord_to_int], rfl⟩
  intro i q
  constructor <;>
    · show Filter.ord_to_int (Filter.cmp_rat _ _) = _
      unfold Filter.cmp_rat
      split_ifs <;> rfl

/-! Claim C10: LIKE translation and matching. -/

/-- Claim C10: the LIKE translation maps `%` to `.*` and `_` to `.` and
leaves every other character — including regex metacharacters — unescaped;
consequently the pattern `a.c` (containing the metacharacter `.`) matches
the string `abc`, which does not contain a literal `.`.  Evaluating the
match against a non-string value yields false, and a pattern whose
translation fails to compile as a regex also yields false — never an
error. -/
theorem c10_like_semantics :
    (∀ c : Char, c ≠ '%' → c ≠ '_' → translate_pattern [c] = [c])
    ∧ translate_pattern ['%'] = ['.', '*']
    ∧ translate_pattern ['_'] = ['.']
    ∧ (matches_pattern (.str "abc") "a.c" = true
        ∧ "abc".data.contains '.' = false)
    ∧ (∀ (v : Value) (p : String), v.is_string = false →
        matches_pattern v p = false)
    ∧ (∀ (s p : String), compile_regex (translate_pattern p.data) = none →
        matches_pattern (.str s) p = false)
    ∧ matches_pattern (.str "x") "(" = false := by
  refine ⟨?_, rfl, rfl, ⟨by decide, by decide⟩, ?_, ?_, by decide⟩
  · intro c h1 h2
    simp [translate_pattern, h1, h2]
  · intro v p hv
    cases v <;> simp_all [Value.is_string, matches_pattern]
  · intro s p h
    simp [matches_pattern, h]

/-- Claim C10, witness. -/
theorem c10_like_semantics_witness :
    translate_pattern ['a'] = ['a']
    ∧ matches_pattern (.int 3) "%" = false
    ∧ matches_pattern (.str "y") "(" = false := by
  refine ⟨c10_like_semantics.1 'a' (by decide) (by decide),
    c10_like_semantics.2.2.2.2.1 (.int 3) "%" rfl,
    c10_like_semantics.2.2.2.2.2.1 "y" "(" rfl⟩

/-! Claim C8: INSERT id requirement. -/

/-- Claim C8, counterexample.  The claim states the statement requires
exactly one column named `id`; executing an INSERT whose column list names
`id` twice succeeds (the first occurrence supplies the document id, both
occurrences are skipped when building fields), so uniqueness is not
required. -/
theorem c8_insert_id_counterexample :
    Executor.execute_insert none
        { into := "todos", columns := ["id", "id"],
          values := [.str "task-1", .str "task-2"], body := none }
      = .ok { id := "task-1", path := "task-1.md", fields := [], body := "" } := by
  rfl

/-- Claim C8 as amended: for every INSERT whose target collection name
passes identifier validation, if no position pairs a column named `id`
with a string-literal value then execution fails with the missing-id error
regardless of any registered schema, and no document reaches the
persistence call; what is required is that the first column named `id`
carries a string literal — that string becomes the document id, and
duplicate `id` columns are not rejected. -/
theorem c8_insert_id_amended :
    (∀ (stmt : Executor.InsertStmt) (schema? : Option Schema),
        validate_identifier stmt.into = .ok () →
        (∀ (i : Nat) (s : String), stmt.columns.get? i = some "id" →
          stmt.values.get? i ≠ some (.str s)) →
        Executor.execute_insert schema? stmt = .error .missingId)
    ∧ (∀ (cs : List String) (vs : List Literal) (s : String),
        Executor.extract_id ("id" :: cs) (.str s :: vs) = some s) := by
  constructor
  · intro stmt schema? hval hno
    have hex : Executor.extract_id stmt.columns stmt.values = none := by
      unfold Executor.extract_id
      cases hpos : Executor.id_position stmt.columns with
      | none => rfl
      | some i =>
          have hcol := id_position_get stmt.columns i hpos
          cases hv : stmt.values[i]? with
          | none => simp [hv]
          | some lit =>
              cases lit with
              | str s =>
                  exact absurd ((List.get?_eq_getElem? stmt.values i).trans hv)
                    (hno i s hcol)
              | null => simp [hv]
              | bool b => simp [hv]
              | int n => simp [hv]
              | float q => simp [hv]
              | array xs => simp [hv]
    unfold Executor.execute_insert
    rw [hval, hex]
  · intro cs vs s
    rfl

/-- Claim C8, witness for the amended statement: with and without a schema
registered for the collection, an INSERT without an id column fails with
the missing-id error. -/
theorem c8_insert_id_witness :
    Executor.execute_insert none
        { into := "todos", columns := ["title"], values := [.str "x"],
          body := none }
      = .error .missingId
    ∧ Executor.execute_insert
        (some { name := "todos", description := none,
                fields := [("title",
                  { field_type := .string, required := true, default := none,
                    description := none, indexed := false, unique := false })] })
        { into := "todos", columns := ["title"], values := [.str "x"],
          body := none }
      = .error .missingId
    ∧ Executor.extract_id ["id", "title"] [.str "task-9", .str "x"]
      = some "task-9" := by
  have hno : ∀ (i : Nat) (s : String),
      (["title"] : List String).get? i = some "id" →
      ([Literal.str "x"] : List Literal).get? i ≠ some (.str s) := by
    intro i s h
    cases i with
    | zero => simp at h
    | succ n => simp at h
  exact ⟨c8_insert_id_amended.1 _ none rfl hno,
    c8_insert_id_amended.1 _ _ rfl hno,
    c8_insert_id_amended.2 ["title"] [.str "x"] "task-9"⟩

/-! Claim C5: Date schema validation. -/

/-- Claim C5, counterexample.  The claim is an if-and-only-if against the
`YYYY-MM-DD` shape (four digits, dash, two digits, dash, two digits): the
code also accepts 10-character strings whose dash-separated components have
other widths, such as `2024-1-015`, which the shape predicate built from
the spec's words rejects. -/
theorem c5_date_shape_counterexample :
    is_valid_date "2024-1-015" = true ∧ spec_date_shape "2024-1-015" = false := by
  exact ⟨by decide, by decide⟩

/-- Claim C5 as amended: a Date-typed field accepts a string iff it has
exactly 10 characters splitting on `-` into exactly three unsigned-integer
components with month 1–12 and day 1–31; in particular every zero-padded
`YYYY-MM-DD` string is accepted exactly when month and day are in those
ranges — with no month-length or leap-year check, so `2024-02-31` is
accepted and `2024-13-01` rejected — but component widths are not enforced
(`2024-1-015` is also accepted). -/
theorem c5_date_amended :
    (∀ y m d : Nat, y < 10000 → m < 100 → d < 100 →
        (check_type_match .date (.str (mk_date y m d)) = true ↔
          1 ≤ m ∧ m ≤ 12 ∧ 1 ≤ d ∧ d ≤ 31))
    ∧ check_type_match .date (.str "2024-02-31") = true
    ∧ check_type_match .date (.str "2024-13-01") = false
    ∧ check_type_match .date (.str "2024-1-015") = true := by
  refine ⟨?_, by decide, by decide, by decide⟩
  intro y m d hy hm hd
  have hp4 : (10 : Nat) ^ 4 = 10000 := by norm_num
  have hp2 : (10 : Nat) ^ 2 = 100 := by norm_num
  have h32 : (2 : Nat) ^ 32 = 4294967296 := by norm_num
  have hdc : check_type_match .date (.str (mk_date y m d))
      = is_valid_date_chars (mk_date y m d).data := rfl
  have hdata : (mk_date y m d).data
      = pad_digits 4 y ++ '-' :: (pad_digits 2 m ++ '-' :: pad_digits 2 d) := rfl
  have hdash : ('-' : Char).isDigit = false := by decide
  have hlen : (mk_date y m d).data.length = 10 := by
    rw [hdata]; simp [pad_digits_length]
  have hsplit : split_on_char '-' (mk_date y m d).data
      = [pad_digits 4 y, pad_digits 2 m, pad_digits 2 d] := by
    rw [hdata]
    exact split_three (pad_digits_no_char 4 y hdash)
      (pad_digits_no_char 2 m hdash) (pad_digits_no_char 2 d hdash)
  rw [hdc]
  unfold is_valid_date_chars
  rw [if_pos hlen, hsplit]
  rw [show date_parts_ok [pad_digits 4 y, pad_digits 2 m, pad_digits 2 d]
      = (decide (1 ≤ m) && decide (m ≤ 12) && decide (1 ≤ d) && decide (d ≤ 31))
    from by
      simp only [date_parts_ok]
      rw [parse_pad 4 y (by norm_num) (by omega) (by omega),
        parse_pad 2 m (by norm_num) (by omega) (by omega),
        parse_pad 2 d (by norm_num) (by omega) (by omega)]]
  simp [and_assoc]

/-- Claim C5, witness for the amended statement. -/
theorem c5_date_amended_witness :
    mk_date 2024 2 31 = "2024-02-31"
    ∧ check_type_match .date (.str (mk_date 2024 2 31)) = true := by
  refine ⟨by decide, ?_⟩
  exact (c5_date_amended.1 2024 2 31 (by norm_num) (by norm_num)
    (by norm_num)).mpr (by norm_num)

end Mdby
